import Mathlib

/-!
Verification development for the alcohol-origins geomap pipeline
(`create_map.py`).  The pure transformation core — the date parser, the
radius mapper, the record preparer and the lineage resolver — is embedded
shallowly: strings are `String`/`List Char`, Python ints are `Int`/`Nat`,
Python float arithmetic is modelled by exact rational arithmetic (the
code's float computations agree with the exact rationals at every integer
decision point, since the clamps absorb the sub-ulp deviations at the
interval ends), pandas DataFrames are lists of records, and the folium
side effects (PolyLine / CircleMarker emission) are modelled as the list
of emitted geometry.
-/

namespace GeoMap

/-! ## Date parsing (`parse_year`) -/

/-- Model of Python regex `\d` (ASCII decimal digit, as occurs in the data). -/
def isPyDigit (c : Char) : Bool := '0' ≤ c && c ≤ '9'

/-- Model of Python regex `\s` / `str.strip` whitespace (ASCII whitespace set). -/
def isPySpace (c : Char) : Bool :=
  c == ' ' || c == '\t' || c == '\n' || c == '\r' || c == '\x0b' || c == '\x0c'

/-- Model of Python `str.strip()`: drop leading and trailing whitespace. -/
def pyStrip (cs : List Char) : List Char :=
  ((cs.dropWhile isPySpace).reverse.dropWhile isPySpace).reverse

/-- Decimal value of a digit string, as `int(...)` computes it. -/
def digVal (ds : List Char) : Nat :=
  ds.foldl (fun n c => 10 * n + (c.toNat - '0'.toNat)) 0

/-- Match the tail regex `(BCE|CE)$`: the remaining characters must be exactly
one of the two era markers.  Returns `true` for BCE, `false` for CE. -/
def matchEra (cs : List Char) : Option Bool :=
  if cs = ['B', 'C', 'E'] then some true
  else if cs = ['C', 'E'] then some false
  else none

/-- Model of `re.match(r"(\d+)\s*(BCE|CE)$", s)` on the stripped string:
a nonempty greedy run of digits, optional whitespace, then the era marker
ending the string.  (No backtracking can occur: no digit is whitespace or
a character of `BCE`/`CE`.)  Returns the digit value and the BCE flag. -/
def matchPat1 (cs : List Char) : Option (Nat × Bool) :=
  let ds := cs.takeWhile isPyDigit
  if ds.isEmpty then none
  else (matchEra ((cs.dropWhile isPyDigit).dropWhile isPySpace)).map
    (fun b => (digVal ds, b))

/-- Match the non-capturing group `(?:st|nd|rd|th)` at the head of the list,
returning the remainder.  The four alternatives start with distinct
two-character sequences, so the alternation is deterministic. -/
def ordSuffix (cs : List Char) : Option (List Char) :=
  match cs with
  | 's' :: 't' :: rest => some rest
  | 'n' :: 'd' :: rest => some rest
  | 'r' :: 'd' :: rest => some rest
  | 't' :: 'h' :: rest => some rest
  | _ => none

/-- Match the literal `century` at the head of the list, returning the rest. -/
def dropCentury (cs : List Char) : Option (List Char) :=
  match cs with
  | 'c' :: 'e' :: 'n' :: 't' :: 'u' :: 'r' :: 'y' :: rest => some rest
  | _ => none

/-- Model of `re.match(r"(\d+)(?:st|nd|rd|th)\s+century\s*(BCE|CE)$", s)`:
nonempty digits, an ordinal suffix, at least one whitespace, the literal
`century`, optional whitespace, then the era marker ending the string. -/
def matchPat2 (cs : List Char) : Option (Nat × Bool) :=
  let ds := cs.takeWhile isPyDigit
  if ds.isEmpty then none
  else
    match ordSuffix (cs.dropWhile isPyDigit) with
    | none => none
    | some r1 =>
      match r1 with
      | [] => none
      | c :: _ =>
        if isPySpace c then
          match dropCentury (r1.dropWhile isPySpace) with
          | none => none
          | some r2 =>
            (matchEra (r2.dropWhile isPySpace)).map (fun b => (digVal ds, b))
        else none

/-- Model of `re.match(r"(\d{3,4})$", s)`: the whole string is exactly three
or four digits. -/
def matchPat3 (cs : List Char) : Option Nat :=
  if cs.all isPyDigit && (cs.length == 3 || cs.length == 4) then
    some (digVal cs)
  else none

/-- Function `parse_year` from `create_map.py`, on the character list of the input:
strip, then try the three regexes in order; BCE negates; the century form
returns the midpoint `century*100 - 50`; everything else returns 0. -/
def parseYearChars (dateStr : List Char) : Int :=
  let cs := pyStrip dateStr
  match matchPat1 cs with
  | some (n, bce) => if bce then -(n : Int) else (n : Int)
  | none =>
    match matchPat2 cs with
    | some (c, bce) =>
      let mid : Int := (c : Int) * 100 - 50
      if bce then -mid else mid
    | none =>
      match matchPat3 cs with
      | some n => (n : Int)
      | none => 0

/-- Function `parse_year(date_str: str) -> int` from `create_map.py`. -/
def parse_year (dateStr : String) : Int := parseYearChars dateStr.data

/-- The character list of an era marker: `BCE` or `CE`. -/
def eraChars (bce : Bool) : List Char :=
  if bce then ['B', 'C', 'E'] else ['C', 'E']

/-- The character list of the literal `century`. -/
def centuryChars : List Char := ['c', 'e', 'n', 't', 'u', 'r', 'y']

/-! ## Radius mapping (`compute_radius`) -/

/-- Python `int(...)` on a rational value: truncation toward zero. -/
def truncQ (q : ℚ) : Int := if q < 0 then ⌈q⌉ else ⌊q⌋

/-- Python `min(a, b)` (returns `a` on ties, immaterial for values). -/
def pyMin (a b : ℚ) : ℚ := if b < a then b else a

/-- Python `max(a, b)` (returns `a` on ties, immaterial for values). -/
def pyMax (a b : ℚ) : ℚ := if a < b then b else a

/-- Function `compute_radius(year: int) -> int` from `create_map.py`.  The Python
float arithmetic is modelled by exact rational arithmetic; at every integer
year the truncated clamped values coincide (the clamps absorb the only
sub-ulp float deviations, at the interval endpoints). -/
def compute_radius (year : Int) : Int :=
  if year = 0 then 5
  else
    let m : ℚ := (4 - 12) / (2000 - (-5000))
    let b : ℚ := 12 - m * (-5000)
    let r : ℚ := m * (year : ℚ) + b
    truncQ (pyMax 4 (pyMin 12 r))

/-! ## Record preparation (`prepare_dataframe`) -/

/-- Model of `pd.to_numeric(s, errors="coerce")` on a cell string, for the
plain signed decimal literals occurring in the data: optional surrounding
whitespace, optional sign, digits with an optional fractional part.  A
string outside this grammar coerces to NaN, modelled as `none`.  (Exotic
accepted spellings such as scientific notation are not needed by any
claim.) -/
def toNumeric (s : String) : Option ℚ :=
  let cs := pyStrip s.data
  let sgncs : ℚ × List Char :=
    match cs with
    | '-' :: r => (-1, r)
    | '+' :: r => (1, r)
    | r => (1, r)
  let ip := sgncs.2.takeWhile isPyDigit
  match sgncs.2.dropWhile isPyDigit with
  | [] => if ip.isEmpty then none else some (sgncs.1 * (digVal ip : ℚ))
  | '.' :: fr =>
    if fr.all isPyDigit && !(ip.isEmpty && fr.isEmpty) then
      some (sgncs.1 * ((digVal ip : ℚ) + (digVal fr : ℚ) / (10 ^ fr.length)))
    else none
  | _ => none

/-- One raw row of the worksheet, as `load_sheet_to_df` delivers it: every
cell is a string.  Only the columns the transformation core reads are
modelled; `type`, `description` and `citation` are passed through to popup
text untouched and carry no logic. -/
structure Row where
  node_id : String
  parent_id : String
  latitude : String
  longitude : String
  date : String
  group : String
deriving DecidableEq

/-- A prepared row after `prepare_dataframe`: coordinates are numeric and
the derived `year` and `radius` columns are attached. -/
structure PreparedRow where
  node_id : String
  parent_id : String
  latitude : ℚ
  longitude : ℚ
  date : String
  group : String
  year : Int
  radius : Int
deriving DecidableEq

/-- Function `prepare_dataframe` from `create_map.py`: coerce `latitude` and
`longitude` to numeric, drop rows where either coercion fails (`dropna`),
then attach `year = parse_year(date)` and `radius = compute_radius(year)`.
Input order of the retained rows is preserved. -/
def prepare_dataframe (df : List Row) : List PreparedRow :=
  df.filterMap (fun r =>
    match toNumeric r.latitude, toNumeric r.longitude with
    | some la, some lo =>
      some ⟨r.node_id, r.parent_id, la, lo, r.date, r.group,
        parse_year r.date, compute_radius (parse_year r.date)⟩
    | _, _ => none)

/-! ## Lineage resolution (`add_parent_child_lines` and the inlined copy
in `create_folium_map`) -/

/-- The coordinate lookup both line-drawing passes build:
`{row["node_id"]: (row["latitude"], row["longitude"]) for _, row in
df.iterrows() if row["node_id"]}`.  Rows are inserted in input order, a
later row with the same non-empty `node_id` overwriting an earlier one
(Python dict comprehension semantics); rows with an empty `node_id` are
skipped (`if row["node_id"]` — the empty string is falsy). -/
def coordsLookup (df : List PreparedRow) : String → Option (ℚ × ℚ) :=
  df.foldl
    (fun acc r =>
      if r.node_id = "" then acc
      else fun k => if k = r.node_id then some (r.latitude, r.longitude) else acc k)
    (fun _ => none)

/-- Python `dict.get(key, default)` on a string-keyed association list. -/
def dictGet (m : List (String × String)) (k dflt : String) : String :=
  match m.find? (fun p => p.1 == k) with
  | some p => p.2
  | none => dflt

/-- A `folium.PolyLine` emitted for a lineage connection: parent
coordinate, child coordinate, and line color. -/
structure Conn where
  parent : ℚ × ℚ
  child : ℚ × ℚ
  color : String
deriving DecidableEq

/-- Function `add_parent_child_lines` from `create_map.py`, modelled as the list of
PolyLines added to the map, in emission order: for each row whose
`parent_id` is a key of the coordinate lookup, one line from the parent
coordinate to the row's coordinate, colored
`color_map.get(row["group"], "gray")`.  No input makes it raise. -/
def add_parent_child_lines (df : List PreparedRow) (color_map : List (String × String)) :
    List Conn :=
  df.foldl
    (fun acc r =>
      match coordsLookup df r.parent_id with
      | some pc => acc ++ [⟨pc, (r.latitude, r.longitude), dictGet color_map r.group "gray"⟩]
      | none => acc)
    []

/-- The `group_color_map` literal of `create_folium_map`. -/
def group_color_map : List (String × String) :=
  [("Grain", "#f9d81b"), ("Grape", "#75147c"), ("Sugar", "#FFFFFF"), ("Cactus", "#367c21")]

/-- Lookup `group_color_map.get(grp)` / `group_fgs.get(grp)` as used inside
`create_folium_map`: `none` exactly when the group is not one of the four
configured ones. -/
def lookupColor (g : String) : Option String :=
  (group_color_map.find? (fun p => p.1 == g)).map (fun p => p.2)

/-- A `folium.CircleMarker` emitted for a record: center, radius, color. -/
structure Circle where
  center : ℚ × ℚ
  radius : Int
  color : String
deriving DecidableEq

/-- The lineage lines drawn by step 5 of `create_folium_map`, in emission
order.  Unlike `add_parent_child_lines`, a row whose `group` is not in
`group_color_map` is skipped outright (`fg = group_fgs.get(grp); if not
fg: continue`), and the line color is `group_color_map[grp]` with no
fallback. -/
def create_folium_map_lines (df : List PreparedRow) : List Conn :=
  df.foldl
    (fun acc r =>
      match lookupColor r.group with
      | none => acc
      | some col =>
        match coordsLookup df r.parent_id with
        | some pc => acc ++ [⟨pc, (r.latitude, r.longitude), col⟩]
        | none => acc)
    []

/-- The circle markers drawn by step 5 of `create_folium_map`, in emission
order: one per row whose `group` is configured, none for other rows. -/
def create_folium_map_circles (df : List PreparedRow) : List Circle :=
  df.foldl
    (fun acc r =>
      match lookupColor r.group with
      | none => acc
      | some col => acc ++ [⟨(r.latitude, r.longitude), r.radius, col⟩])
    []

/-! ## Concrete records used by witnesses and counterexamples -/

/-- A raw row whose latitude parses to 91 — numerically valid for the
coercion but outside the geographic range [-90, 90]. -/
def row91 : Row := ⟨"A", "", "91", "0", "", "Grain"⟩

/-- The prepared image of `row91`. -/
def prepared91 : PreparedRow := ⟨"A", "", 91, 0, "", "Grain", 0, 5⟩

/-- Lineage end-to-end example, record A: has an id, no parent. -/
def rowA : PreparedRow := ⟨"A", "", 0, 0, "", "Grain", 0, 5⟩

/-- Lineage end-to-end example, record B: child of A. -/
def rowB : PreparedRow := ⟨"B", "A", 1, 1, "", "Grain", 0, 5⟩

/-- Lineage end-to-end example, record C: parent id Z matches no record. -/
def rowC : PreparedRow := ⟨"C", "Z", 2, 2, "", "Grain", 0, 5⟩

/-- The spec's three-record lineage example {A, B, C}. -/
def lineageExample : List PreparedRow := [rowA, rowB, rowC]

/-- Duplicate-id example: first record with id X. -/
def dupX1 : PreparedRow := ⟨"X", "", 10, 10, "", "Grain", 0, 5⟩

/-- Duplicate-id example: second record with the same id X, later in input
order, at different coordinates. -/
def dupX2 : PreparedRow := ⟨"X", "", 20, 20, "", "Grain", 0, 5⟩

/-- Duplicate-id example: a child referencing the duplicated id X. -/
def dupChild : PreparedRow := ⟨"Y", "X", 30, 30, "", "Grain", 0, 5⟩

/-- Records with a duplicated id followed by a child of that id. -/
def dupExample : List PreparedRow := [dupX1, dupX2, dupChild]

/-- A parent record in a configured group. -/
def grainParent : PreparedRow := ⟨"P", "", 0, 0, "", "Grain", 0, 5⟩

/-- A child record whose group `Mead` is not in `group_color_map`, with a
resolvable parent. -/
def meadChild : PreparedRow := ⟨"Q", "P", 1, 1, "", "Mead", 0, 5⟩

/-- A record set containing a child with an unrecognized group. -/
def unknownGroupExample : List PreparedRow := [grainParent, meadChild]

/-- Self-reference example: a record that is its own parent, whose id is
also used by a later record at other coordinates. -/
def selfRef1 : PreparedRow := ⟨"X", "X", 1, 1, "", "Grain", 0, 5⟩

/-- The later record reusing id X. -/
def selfRef2 : PreparedRow := ⟨"X", "", 2, 2, "", "Grain", 0, 5⟩

/-- A self-referencing record whose id is shadowed by a later duplicate. -/
def selfRefDupExample : List PreparedRow := [selfRef1, selfRef2]

/-- A self-referencing record with a unique id. -/
def selfSolo : PreparedRow := ⟨"S", "S", 3, 4, "", "Grain", 0, 5⟩

/-! ## Helper lemmas: characters and list scanning -/

theorem isPySpace_not_digit {c : Char} (h : isPySpace c = true) : isPyDigit c = false := by
  simp only [isPySpace, Bool.or_eq_true, beq_iff_eq] at h
  rcases h with ((((h | h) | h) | h) | h) | h <;> subst h <;> decide

theorem takeWhile_append_all {p : Char → Bool} {l1 : List Char} (l2 : List Char)
    (h : l1.all p = true) : (l1 ++ l2).takeWhile p = l1 ++ l2.takeWhile p := by
  induction l1 with
  | nil => simp
  | cons a t ih =>
    rw [List.all_cons, Bool.and_eq_true] at h
    simp [List.takeWhile_cons_of_pos h.1, ih h.2]

theorem dropWhile_append_all {p : Char → Bool} {l1 : List Char} (l2 : List Char)
    (h : l1.all p = true) : (l1 ++ l2).dropWhile p = l2.dropWhile p := by
  induction l1 with
  | nil => simp
  | cons a t ih =>
    rw [List.all_cons, Bool.and_eq_true] at h
    simp [List.dropWhile_cons_of_pos h.1, ih h.2]

theorem takeWhile_nil_of_all_neg {p : Char → Bool} {l : List Char}
    (h : ∀ c ∈ l, p c = false) : l.takeWhile p = [] := by
  cases l with
  | nil => rfl
  | cons a t =>
    exact List.takeWhile_cons_of_neg (by simp [h a (List.mem_cons_self a t)])

theorem dropWhile_self_of_all_neg {p : Char → Bool} {l : List Char}
    (h : ∀ c ∈ l, p c = false) : l.dropWhile p = l := by
  cases l with
  | nil => rfl
  | cons a t =>
    exact List.dropWhile_cons_of_neg (by simp [h a (List.mem_cons_self a t)])

theorem all_neg_append {p : Char → Bool} {l1 l2 : List Char}
    (h1 : ∀ c ∈ l1, p c = false) (h2 : ∀ c ∈ l2, p c = false) :
    ∀ c ∈ l1 ++ l2, p c = false := by
  intro c hc
  rcases List.mem_append.mp hc with h | h
  · exact h1 c h
  · exact h2 c h

theorem all_space_not_digit {l : List Char} (h : l.all isPySpace = true) :
    ∀ c ∈ l, isPyDigit c = false :=
  fun c hc => isPySpace_not_digit (List.all_eq_true.mp h c hc)

theorem matchEra_cons_ne {c : Char} {l : List Char} (hB : c ≠ 'B') (hC : c ≠ 'C') :
    matchEra (c :: l) = none := by
  have hne1 : (c :: l) ≠ ['B', 'C', 'E'] := by
    intro h; injection h with h1 _; exact hB h1
  have hne2 : (c :: l) ≠ ['C', 'E'] := by
    intro h; injection h with h1 _; exact hC h1
  simp only [matchEra, if_neg hne1, if_neg hne2]

/-! ## Helper lemmas: radius closed form -/

/-- Truncation commutes with the `[4, 12]` clamp: the clamped value is
nonnegative, so truncation is flooring, and the integer clamp bounds pass
through the floor. -/
theorem truncQ_clamp (q : ℚ) :
    truncQ (pyMax 4 (pyMin 12 q)) = max 4 (min 12 ⌊q⌋) := by
  have h4 : ⌊(4 : ℚ)⌋ = 4 := by norm_num
  have h12 : ⌊(12 : ℚ)⌋ = 12 := by norm_num
  unfold truncQ pyMax pyMin
  rcases lt_or_le q 4 with hq4 | hq4
  · have hq12 : q < 12 := hq4.trans_le (by norm_num)
    have hfle : ⌊q⌋ ≤ 4 := h4 ▸ Int.floor_le_floor hq4.le
    rw [if_pos hq12, if_neg (not_lt.mpr hq4.le), if_neg (by norm_num : ¬(4 : ℚ) < 0), h4,
      min_eq_right (hfle.trans (by norm_num)), max_eq_left hfle]
  · rcases lt_or_le q 12 with hq12 | hq12
    · have hfge : (4 : ℤ) ≤ ⌊q⌋ := Int.le_floor.mpr (by exact_mod_cast hq4)
      have hfle : ⌊q⌋ ≤ 12 := h12 ▸ Int.floor_le_floor hq12.le
      have hmaxq : (if 4 < q then q else 4) = q := by
        rcases eq_or_lt_of_le hq4 with h | h
        · rw [if_neg (not_lt.mpr h.ge)]; exact h
        · rw [if_pos h]
      have hq0 : ¬ q < 0 := not_lt.mpr ((by norm_num : (0:ℚ) ≤ 4).trans hq4)
      rw [if_pos hq12, hmaxq, if_neg hq0, min_eq_right hfle, max_eq_right hfge]
    · have hfge : (12 : ℤ) ≤ ⌊q⌋ := Int.le_floor.mpr (by exact_mod_cast hq12)
      rw [if_neg (not_lt.mpr hq12), if_pos (by norm_num : (4:ℚ) < 12),
        if_neg (by norm_num : ¬(12 : ℚ) < 0), h12, min_eq_left hfge,
        max_eq_right (by norm_num : (4:ℤ) ≤ 12)]

/-- Closed form for `compute_radius` on nonzero years: the exact linear
interpolation simplifies to `(5500 - year) / 875`, and the clamp and the
floor commute, leaving integer floor division. -/
theorem compute_radius_closed (y : Int) (hy : y ≠ 0) :
    compute_radius y = max 4 (min 12 ((5500 - y) / 875)) := by
  have hr : ((4 - 12 : ℚ) / (2000 - (-5000))) * (y : ℚ)
      + (12 - ((4 - 12 : ℚ) / (2000 - (-5000))) * (-5000))
      = ((5500 - y : ℤ) : ℚ) / ((875 : ℕ) : ℚ) := by
    push_cast
    ring
  simp only [compute_radius, if_neg hy]
  rw [hr, truncQ_clamp, Rat.floor_intCast_div_natCast]
  norm_num

/-! ## Helper lemmas: lineage resolution -/

/-- The emission loop of `add_parent_child_lines` is a `filterMap`: one
connection per row with a resolvable parent, in input order. -/
theorem add_parent_child_lines_eq (df : List PreparedRow) (cm : List (String × String)) :
    add_parent_child_lines df cm = df.filterMap (fun r =>
      (coordsLookup df r.parent_id).map (fun pc =>
        ⟨pc, (r.latitude, r.longitude), dictGet cm r.group "gray"⟩)) := by
  suffices h : ∀ (l : List PreparedRow) (acc : List Conn),
      l.foldl
        (fun acc r =>
          match coordsLookup df r.parent_id with
          | some pc =>
            acc ++ [⟨pc, (r.latitude, r.longitude), dictGet cm r.group "gray"⟩]
          | none => acc)
        acc
      = acc ++ l.filterMap (fun r =>
          (coordsLookup df r.parent_id).map (fun pc =>
            ⟨pc, (r.latitude, r.longitude), dictGet cm r.group "gray"⟩)) by
    simpa [add_parent_child_lines] using h df []
  intro l
  induction l with
  | nil => intro acc; simp
  | cons a t ih =>
    intro acc
    rw [List.foldl_cons, List.filterMap_cons]
    cases hc : coordsLookup df a.parent_id with
    | none => simp only [hc, Option.map_none']; exact ih acc
    | some pc => simp only [hc, Option.map_some']; rw [ih]; simp

/-- The emission loop of step 5 of `create_folium_map` is a `filterMap`:
rows with an unconfigured group are dropped, others contribute a line
exactly when their parent resolves. -/
theorem create_folium_map_lines_eq (df : List PreparedRow) :
    create_folium_map_lines df = df.filterMap (fun r =>
      (lookupColor r.group).bind (fun col =>
        (coordsLookup df r.parent_id).map (fun pc =>
          ⟨pc, (r.latitude, r.longitude), col⟩))) := by
  suffices h : ∀ (l : List PreparedRow) (acc : List Conn),
      l.foldl
        (fun acc r =>
          match lookupColor r.group with
          | none => acc
          | some col =>
            match coordsLookup df r.parent_id with
            | some pc => acc ++ [⟨pc, (r.latitude, r.longitude), col⟩]
            | none => acc)
        acc
      = acc ++ l.filterMap (fun r =>
          (lookupColor r.group).bind (fun col =>
            (coordsLookup df r.parent_id).map (fun pc =>
              ⟨pc, (r.latitude, r.longitude), col⟩))) by
    simpa [create_folium_map_lines] using h df []
  intro l
  induction l with
  | nil => intro acc; simp
  | cons a t ih =>
    intro acc
    rw [List.foldl_cons, List.filterMap_cons]
    cases hg : lookupColor a.group with
    | none => simp only [hg, Option.none_bind]; exact ih acc
    | some col =>
      cases hc : coordsLookup df a.parent_id with
      | none =>
        simp only [hg, hc, Option.some_bind, Option.map_none']
        exact ih acc
      | some pc =>
        simp only [hg, hc, Option.some_bind, Option.map_some']
        rw [ih]; simp

/-- The empty string is never a key of the coordinate lookup: rows with an
empty `node_id` are not inserted. -/
theorem coordsLookup_empty (df : List PreparedRow) : coordsLookup df "" = none := by
  suffices h : ∀ (l : List PreparedRow) (acc : String → Option (ℚ × ℚ)), acc "" = none →
      (l.foldl
        (fun acc r =>
          if r.node_id = "" then acc
          else fun k => if k = r.node_id then some (r.latitude, r.longitude) else acc k)
        acc) "" = none by
    exact h df _ rfl
  intro l
  induction l with
  | nil => intro acc hacc; exact hacc
  | cons a t ih =>
    intro acc hacc
    rw [List.foldl_cons]
    apply ih
    by_cases ha : a.node_id = ""
    · rw [if_pos ha]; exact hacc
    · rw [if_neg ha, if_neg (fun h => ha h.symm)]; exact hacc

/-- Last-write-wins: for a non-empty key, the coordinate lookup returns
the coordinates of the LAST row in input order bearing that `node_id`. -/
theorem coordsLookup_getLast (df : List PreparedRow) (id : String) (hid : id ≠ "") :
    coordsLookup df id
      = ((df.filter (fun r => r.node_id == id)).getLast?).map
          (fun r => (r.latitude, r.longitude)) := by
  induction df using List.reverseRecOn with
  | nil => rfl
  | append_singleton l a ih =>
    unfold coordsLookup at ih ⊢
    rw [List.foldl_append, List.foldl_cons, List.foldl_nil, List.filter_append]
    by_cases ha : a.node_id = ""
    · have hne : (a.node_id == id) = false :=
        beq_eq_false_iff_ne.mpr (fun h => hid (h.symm.trans ha))
      have hfa : List.filter (fun r => r.node_id == id) [a] = [] := by
        simp [List.filter, hne]
      rw [if_pos ha, hfa, List.append_nil, ih]
    · rw [if_neg ha]
      by_cases hk : id = a.node_id
      · have he : (a.node_id == id) = true := beq_iff_eq.mpr hk.symm
        have hfa : List.filter (fun r => r.node_id == id) [a] = [a] := by
          simp [List.filter, he]
        rw [if_pos hk, hfa, List.getLast?_concat, Option.map_some']
      · have hne : (a.node_id == id) = false :=
          beq_eq_false_iff_ne.mpr (fun h => hk h.symm)
        have hfa : List.filter (fun r => r.node_id == id) [a] = [] := by
          simp [List.filter, hne]
        rw [if_neg hk, hfa, List.append_nil, ih]

/-! ## Helper lemmas: concrete coercions and preparation -/

theorem toNumeric_91 : toNumeric "91" = some 91 := by
  have h : toNumeric "91" = some (1 * ((91 : ℕ) : ℚ)) := rfl
  rw [h]; norm_num

theorem toNumeric_0 : toNumeric "0" = some 0 := by
  have h : toNumeric "0" = some (1 * ((0 : ℕ) : ℚ)) := rfl
  rw [h]; norm_num

theorem prepare_row91 : prepare_dataframe [row91] = [prepared91] := by
  simp only [prepare_dataframe, row91, List.filterMap_cons, List.filterMap_nil,
    toNumeric_91, toNumeric_0]
  rfl

/-! ## Claim theorems -/

/-- C2: `compute_radius(0) = 5`; every nonzero year maps through the exact
linear interpolation `r = m*year + b` clamped to `[4, 12]` and truncated
toward zero, which equals `max 4 (min 12 ((5500 - year) / 875))` with
floor division; the endpoint and out-of-domain values are
`compute_radius(-5000) = 12`, `compute_radius(2000) = 4`, and years
outside `[-5000, 2000]` clamp: `compute_radius(-9000) = 12`,
`compute_radius(9000) = 4`, and in general years at or below -5000 give
12 and years at or above 2000 give 4. -/
theorem compute_radius_spec :
    compute_radius 0 = 5
    ∧ (∀ y : Int, y ≠ 0 → compute_radius y = max 4 (min 12 ((5500 - y) / 875)))
    ∧ compute_radius (-5000) = 12
    ∧ compute_radius 2000 = 4
    ∧ compute_radius (-9000) = 12
    ∧ compute_radius 9000 = 4
    ∧ (∀ y : Int, y ≤ -5000 → compute_radius y = 12)
    ∧ (∀ y : Int, 2000 ≤ y → compute_radius y = 4) := by
  refine ⟨rfl, compute_radius_closed, ?_, ?_, ?_, ?_, ?_, ?_⟩
  · rw [compute_radius_closed (-5000) (by decide)]; decide
  · rw [compute_radius_closed 2000 (by decide)]; decide
  · rw [compute_radius_closed (-9000) (by decide)]; decide
  · rw [compute_radius_closed 9000 (by decide)]; decide
  · intro y hy
    rw [compute_radius_closed y (by omega)]
    have h12 : (12 : ℤ) ≤ (5500 - y) / 875 :=
      (Int.le_ediv_iff_mul_le (by decide)).mpr (by omega)
    rw [min_eq_left h12, max_eq_right (by decide : (4:ℤ) ≤ 12)]
  · intro y hy
    rw [compute_radius_closed y (by omega)]
    have hle : (5500 - y) / 875 ≤ 4 := by
      have h := Int.ediv_le_ediv (by decide : (0:ℤ) < 875) (by omega : 5500 - y ≤ 3500)
      have h4 : (3500 : ℤ) / 875 = 4 := by decide
      rw [h4] at h
      exact h
    rw [min_eq_right (hle.trans (by decide : (4:ℤ) ≤ 12)), max_eq_left hle]

/-- C2 witness: the general nonzero-year clause of `compute_radius_spec`
applied at concrete years. -/
theorem compute_radius_spec_witness :
    compute_radius 300 = max 4 (min 12 ((5500 - 300) / 875))
    ∧ compute_radius 2024 = 4 :=
  ⟨compute_radius_spec.2.1 300 (by decide),
    compute_radius_spec.2.2.2.2.2.2.2 2024 (by decide)⟩

/-- C5 counterexample: monotonicity fails across the sentinel year 0,
which is inside the claimed domain `[-5000, 2000]`: `compute_radius`
jumps from 5 at year 0 back up to 6 at year 1. -/
theorem compute_radius_mono_cex :
    compute_radius 0 = 5 ∧ compute_radius 1 = 6
    ∧ ¬ compute_radius 1 ≤ compute_radius 0 := by
  have h1 : compute_radius 1 = 6 := by
    rw [compute_radius_closed 1 (by decide)]; decide
  have h0 : compute_radius 0 = 5 := rfl
  exact ⟨h0, h1, by rw [h0, h1]; decide⟩

/-- C5 amended: `compute_radius` is monotonically non-increasing in the
year over `[-5000, 2000]` restricted to nonzero years (the year-0
sentinel value 5 breaks monotonicity at 0). -/
theorem compute_radius_mono_amended (y1 y2 : Int) (h1 : -5000 ≤ y1) (h12 : y1 < y2)
    (h2 : y2 ≤ 2000) (hz1 : y1 ≠ 0) (hz2 : y2 ≠ 0) :
    compute_radius y2 ≤ compute_radius y1 := by
  rw [compute_radius_closed y1 hz1, compute_radius_closed y2 hz2]
  have hd : (5500 - y2) / 875 ≤ (5500 - y1) / 875 :=
    Int.ediv_le_ediv (by decide) (by omega)
  exact max_le_max (le_refl 4) (min_le_min (le_refl 12) hd)

/-- C5 witness: the amended monotonicity applied at years -100 < 100. -/
theorem compute_radius_mono_amended_witness :
    compute_radius 100 ≤ compute_radius (-100) :=
  compute_radius_mono_amended (-100) 100 (by decide) (by decide) (by decide)
    (by decide) (by decide)

/-- C3 counterexample: a row with latitude string "91" survives
preparation with latitude 91, outside the claimed range [-90, 90] — the
coercion checks parseability only, never range. -/
theorem prepare_range_cex :
    prepare_dataframe [row91] = [prepared91] ∧ (90 : ℚ) < prepared91.latitude :=
  ⟨prepare_row91, by norm_num [prepared91]⟩

/-- C3 amended: every record retained by `prepare_dataframe` stems from an
input row whose latitude and longitude both coerced successfully (and
carries the derived `year`/`radius` fields), and exactly the rows where
both coercions succeed are retained — rows failing coercion are dropped,
not repaired; no range validation is performed. -/
theorem prepare_retained_amended (df : List Row) :
    (∀ p ∈ prepare_dataframe df, ∃ r ∈ df,
        toNumeric r.latitude = some p.latitude
        ∧ toNumeric r.longitude = some p.longitude
        ∧ p.year = parse_year r.date
        ∧ p.radius = compute_radius (parse_year r.date))
    ∧ (prepare_dataframe df).length
        = (df.filter (fun r =>
            (toNumeric r.latitude).isSome && (toNumeric r.longitude).isSome)).length := by
  constructor
  · intro p hp
    rcases List.mem_filterMap.mp hp with ⟨r, hr, hfr⟩
    refine ⟨r, hr, ?_⟩
    cases hla : toNumeric r.latitude with
    | none => rw [hla] at hfr; simp at hfr
    | some la =>
      cases hlo : toNumeric r.longitude with
      | none => rw [hla, hlo] at hfr; simp at hfr
      | some lo =>
        rw [hla, hlo] at hfr
        simp only [Option.some.injEq] at hfr
        cases hfr
        exact ⟨rfl, rfl, rfl, rfl⟩
  · induction df with
    | nil => rfl
    | cons r t ih =>
      simp only [prepare_dataframe] at ih ⊢
      rw [List.filterMap_cons, List.filter_cons]
      cases hla : toNumeric r.latitude with
      | none => simp [hla, ih]
      | some la =>
        cases hlo : toNumeric r.longitude with
        | none => simp [hla, hlo, ih]
        | some lo => simp [hla, hlo, ih]

/-- C3 witness: the amended retention property applied to the singleton
record set `[row91]` and its prepared image. -/
theorem prepare_retained_amended_witness :
    ∃ r ∈ [row91], toNumeric r.latitude = some prepared91.latitude
      ∧ toNumeric r.longitude = some prepared91.longitude
      ∧ prepared91.year = parse_year r.date
      ∧ prepared91.radius = compute_radius (parse_year r.date) :=
  (prepare_retained_amended [row91]).1 prepared91
    (by rw [prepare_row91]; exact List.mem_singleton.mpr rfl)

/-- C4: the lineage resolver emits exactly one directed connection
(parent coordinates → child coordinates) per retained record whose
`parent_id` resolves in the coordinate lookup, and none otherwise — the
emission loop is exactly a `filterMap`; the empty `parent_id` never
resolves (empty ids are never inserted); and on the spec's three-record
example {A, B: parent A, C: parent Z} exactly the single connection A→B
is emitted.  Totality of the model is totality of the function: no input
raises. -/
theorem lineage_connections_spec :
    (∀ (df : List PreparedRow) (cm : List (String × String)),
        add_parent_child_lines df cm = df.filterMap (fun r =>
          (coordsLookup df r.parent_id).map (fun pc =>
            ⟨pc, (r.latitude, r.longitude), dictGet cm r.group "gray"⟩)))
    ∧ (∀ df : List PreparedRow, coordsLookup df "" = none)
    ∧ add_parent_child_lines lineageExample group_color_map
        = [⟨(0, 0), (1, 1), "#f9d81b"⟩] :=
  ⟨add_parent_child_lines_eq, coordsLookup_empty, by decide⟩

/-- C8: duplicate non-empty ids resolve last-write-wins — the lookup
returns the coordinates of the latest record in input order with that
id — and a connection to such a parent id uses those coordinates, as the
concrete duplicate-id example shows (`dupChild`'s line starts at
`dupX2`'s coordinates (20, 20), not `dupX1`'s (10, 10)). -/
theorem duplicate_id_last_write_wins :
    (∀ (df : List PreparedRow) (id : String), id ≠ "" →
        coordsLookup df id
          = ((df.filter (fun r => r.node_id == id)).getLast?).map
              (fun r => (r.latitude, r.longitude)))
    ∧ add_parent_child_lines dupExample group_color_map
        = [⟨(20, 20), (30, 30), "#f9d81b"⟩] :=
  ⟨coordsLookup_getLast, by decide⟩

/-- C8 witness: the last-write-wins clause applied to the duplicate-id
example at key "X". -/
theorem duplicate_id_last_write_wins_witness :
    coordsLookup dupExample "X"
      = ((dupExample.filter (fun r => r.node_id == "X")).getLast?).map
          (fun r => (r.latitude, r.longitude)) :=
  duplicate_id_last_write_wins.1 dupExample "X" (by decide)

/-- C9 counterexample: in `create_folium_map` (the path `main` actually
runs), a record whose group is unrecognized is skipped outright: the
child `meadChild` (group "Mead", parent "P" resolvable in the lookup)
yields NO line and NO circle — not a fallback-colored rendering. -/
theorem unknown_group_render_cex :
    coordsLookup unknownGroupExample "P" = some (0, 0)
    ∧ meadChild ∈ unknownGroupExample
    ∧ meadChild.parent_id = "P"
    ∧ lookupColor meadChild.group = none
    ∧ create_folium_map_lines unknownGroupExample = []
    ∧ create_folium_map_circles unknownGroupExample = [⟨(0, 0), 5, "#f9d81b"⟩] := by
  decide

/-- C9 amended: every connection emitted by `add_parent_child_lines`
carries the color looked up from the child's `group` with explicit
fallback "gray" (so there an unrecognized group still renders); but in
`create_folium_map`, rows whose `group` is not in `group_color_map` are
skipped entirely and contribute no connection, as both emission
characterizations and the concrete example show. -/
theorem connection_color_fallback_amended :
    (∀ (df : List PreparedRow) (cm : List (String × String)),
        add_parent_child_lines df cm = df.filterMap (fun r =>
          (coordsLookup df r.parent_id).map (fun pc =>
            ⟨pc, (r.latitude, r.longitude), dictGet cm r.group "gray"⟩)))
    ∧ (∀ df : List PreparedRow,
        create_folium_map_lines df = df.filterMap (fun r =>
          (lookupColor r.group).bind (fun col =>
            (coordsLookup df r.parent_id).map (fun pc =>
              ⟨pc, (r.latitude, r.longitude), col⟩))))
    ∧ add_parent_child_lines unknownGroupExample group_color_map
        = [⟨(0, 0), (1, 1), "gray"⟩] :=
  ⟨add_parent_child_lines_eq, create_folium_map_lines_eq, by decide⟩

/-- C10 counterexample: when the self-referencing record's id is reused
by a later record, the lookup resolves to the later coordinates, so the
emitted connection for the self-referencing record is NOT degenerate:
`selfRef1` (id X, parent X, at (1,1)) gets the connection (2,2) → (1,1),
and no (1,1) → (1,1) connection exists. -/
theorem self_reference_degenerate_cex :
    selfRef1 ∈ selfRefDupExample
    ∧ selfRef1.node_id = "X"
    ∧ selfRef1.parent_id = selfRef1.node_id
    ∧ (add_parent_child_lines selfRefDupExample group_color_map).map
        (fun c => (c.parent, c.child)) = [((2, 2), (1, 1))]
    ∧ ((2, 2) : ℚ × ℚ) ≠ ((1, 1) : ℚ × ℚ) := by
  decide

/-- C10 amended: a retained record with a non-empty `node_id` equal to its
own `parent_id` yields a degenerate self-connection at its own
coordinates, provided the lookup resolves its id to itself (in
particular whenever its id is unique among retained records); no check
excludes self-references. -/
theorem self_reference_connection_amended (df : List PreparedRow)
    (cm : List (String × String)) (r : PreparedRow) (hr : r ∈ df)
    (hself : r.parent_id = r.node_id)
    (hcoord : coordsLookup df r.node_id = some (r.latitude, r.longitude)) :
    (⟨(r.latitude, r.longitude), (r.latitude, r.longitude),
        dictGet cm r.group "gray"⟩ : Conn) ∈ add_parent_child_lines df cm := by
  rw [add_parent_child_lines_eq]
  refine List.mem_filterMap.mpr ⟨r, hr, ?_⟩
  rw [hself, hcoord, Option.map_some']

/-- C10 witness: the amended self-connection property applied to a
one-record set whose sole record is its own parent. -/
theorem self_reference_connection_amended_witness :
    (⟨(3, 4), (3, 4), "#f9d81b"⟩ : Conn)
      ∈ add_parent_child_lines [selfSolo] group_color_map :=
  self_reference_connection_amended [selfSolo] group_color_map selfSolo
    (by decide) (by decide) (by decide)

/-- C1: every input whose stripped form is `<digits><spaces><era>` parses
to the digit value, negated exactly for BCE; every input whose stripped
form is `<digits><st|nd|rd|th><spaces⁺>century<spaces><era>` parses to
the century midpoint `digits*100 - 50`, negated exactly for BCE. -/
theorem parse_year_recognized_forms :
    (∀ (s : String) (ds sp : List Char) (bce : Bool),
        pyStrip s.data = ds ++ sp ++ eraChars bce →
        ds ≠ [] → ds.all isPyDigit = true → sp.all isPySpace = true →
        parse_year s = if bce then -(digVal ds : Int) else (digVal ds : Int))
    ∧ (∀ (s : String) (ds suf sp1 sp2 : List Char) (bce : Bool),
        pyStrip s.data = ds ++ suf ++ sp1 ++ centuryChars ++ sp2 ++ eraChars bce →
        ds ≠ [] → ds.all isPyDigit = true →
        (suf = ['s', 't'] ∨ suf = ['n', 'd'] ∨ suf = ['r', 'd'] ∨ suf = ['t', 'h']) →
        sp1 ≠ [] → sp1.all isPySpace = true → sp2.all isPySpace = true →
        parse_year s =
          if bce then -((digVal ds : Int) * 100 - 50)
          else (digVal ds : Int) * 100 - 50) := by
  constructor
  · intro s ds sp bce hdec hne hds hsp
    have hera_nd : ∀ c ∈ eraChars bce, isPyDigit c = false := by cases bce <;> decide
    have hera_ns : ∀ c ∈ eraChars bce, isPySpace c = false := by cases bce <;> decide
    have hrest_nd : ∀ c ∈ sp ++ eraChars bce, isPyDigit c = false :=
      all_neg_append (all_space_not_digit hsp) hera_nd
    have htake : (ds ++ (sp ++ eraChars bce)).takeWhile isPyDigit = ds := by
      rw [takeWhile_append_all _ hds, takeWhile_nil_of_all_neg hrest_nd, List.append_nil]
    have hdrop : (ds ++ (sp ++ eraChars bce)).dropWhile isPyDigit = sp ++ eraChars bce := by
      rw [dropWhile_append_all _ hds, dropWhile_self_of_all_neg hrest_nd]
    have hdrop2 : (sp ++ eraChars bce).dropWhile isPySpace = eraChars bce := by
      rw [dropWhile_append_all _ hsp, dropWhile_self_of_all_neg hera_ns]
    have hera : matchEra (eraChars bce) = some bce := by cases bce <;> rfl
    have hemp : ds.isEmpty = false := by
      cases ds with
      | nil => exact absurd rfl hne
      | cons a t => rfl
    have hp1 : matchPat1 (ds ++ sp ++ eraChars bce) = some (digVal ds, bce) := by
      simp [matchPat1, htake, hdrop, hdrop2, hera, hemp]
    simp only [parse_year, parseYearChars]
    rw [hdec, hp1]
  · intro s ds suf sp1 sp2 bce hdec hne hds hsuf hsp1ne hsp1 hsp2
    obtain ⟨c1, c2, rfl, hc1B, hc1C, hc1sp, hc1d, hc2d, hord⟩ :
        ∃ c1 c2, suf = [c1, c2] ∧ c1 ≠ 'B' ∧ c1 ≠ 'C' ∧ isPySpace c1 = false
          ∧ isPyDigit c1 = false ∧ isPyDigit c2 = false
          ∧ ∀ X : List Char, ordSuffix ([c1, c2] ++ X) = some X := by
      rcases hsuf with rfl | rfl | rfl | rfl
      · exact ⟨'s', 't', rfl, by decide, by decide, by decide, by decide, by decide,
          fun X => rfl⟩
      · exact ⟨'n', 'd', rfl, by decide, by decide, by decide, by decide, by decide,
          fun X => rfl⟩
      · exact ⟨'r', 'd', rfl, by decide, by decide, by decide, by decide, by decide,
          fun X => rfl⟩
      · exact ⟨'t', 'h', rfl, by decide, by decide, by decide, by decide, by decide,
          fun X => rfl⟩
    obtain ⟨d, sp1t, rfl⟩ : ∃ dd t, sp1 = dd :: t := by
      cases sp1 with
      | nil => exact absurd rfl hsp1ne
      | cons dd t => exact ⟨dd, t, rfl⟩
    have hsp1c := hsp1
    rw [List.all_cons, Bool.and_eq_true] at hsp1c
    obtain ⟨hd_sp, hsp1t⟩ := hsp1c
    have hera_nd : ∀ c ∈ eraChars bce, isPyDigit c = false := by cases bce <;> decide
    have hera_ns : ∀ c ∈ eraChars bce, isPySpace c = false := by cases bce <;> decide
    have hcen_nd : ∀ c ∈ centuryChars, isPyDigit c = false := by decide
    have hsuf_nd : ∀ c ∈ [c1, c2], isPyDigit c = false := by
      intro c hc
      rcases List.mem_cons.mp hc with rfl | hc
      · exact hc1d
      · rcases List.mem_cons.mp hc with rfl | hc
        · exact hc2d
        · cases hc
    have hrest_nd :
        ∀ c ∈ [c1, c2] ++ ((d :: sp1t) ++ (centuryChars ++ (sp2 ++ eraChars bce))),
          isPyDigit c = false :=
      all_neg_append hsuf_nd (all_neg_append (all_space_not_digit hsp1)
        (all_neg_append hcen_nd (all_neg_append (all_space_not_digit hsp2) hera_nd)))
    have htake :
        (ds ++ ([c1, c2] ++ ((d :: sp1t) ++ (centuryChars ++ (sp2
          ++ eraChars bce))))).takeWhile isPyDigit = ds := by
      rw [takeWhile_append_all _ hds, takeWhile_nil_of_all_neg hrest_nd, List.append_nil]
    have hdrop :
        (ds ++ ([c1, c2] ++ ((d :: sp1t) ++ (centuryChars ++ (sp2
          ++ eraChars bce))))).dropWhile isPyDigit
          = [c1, c2] ++ ((d :: sp1t) ++ (centuryChars ++ (sp2 ++ eraChars bce))) := by
      rw [dropWhile_append_all _ hds, dropWhile_self_of_all_neg hrest_nd]
    have hemp : ds.isEmpty = false := by
      cases ds with
      | nil => exact absurd rfl hne
      | cons a t => rfl
    have hdropsp :
        ([c1, c2] ++ ((d :: sp1t) ++ (centuryChars ++ (sp2
          ++ eraChars bce)))).dropWhile isPySpace
          = [c1, c2] ++ ((d :: sp1t) ++ (centuryChars ++ (sp2 ++ eraChars bce))) := by
      rw [List.cons_append]
      exact List.dropWhile_cons_of_neg (by simp [hc1sp])
    have hmE :
        matchEra ([c1, c2] ++ ((d :: sp1t) ++ (centuryChars ++ (sp2 ++ eraChars bce))))
          = none := by
      rw [List.cons_append]
      exact matchEra_cons_ne hc1B hc1C
    have hdropsp1 :
        ((d :: sp1t) ++ (centuryChars ++ (sp2 ++ eraChars bce))).dropWhile isPySpace
          = centuryChars ++ (sp2 ++ eraChars bce) := by
      rw [List.cons_append, List.dropWhile_cons_of_pos (by simp [hd_sp]),
        dropWhile_append_all _ hsp1t]
      simp only [centuryChars, List.cons_append]
      exact List.dropWhile_cons_of_neg (by decide)
    have hcent :
        dropCentury ('c' :: 'e' :: 'n' :: 't' :: 'u' :: 'r' :: 'y' ::
          (sp2 ++ eraChars bce)) = some (sp2 ++ eraChars bce) := rfl
    have hdropsp2 : (sp2 ++ eraChars bce).dropWhile isPySpace = eraChars bce := by
      rw [dropWhile_append_all _ hsp2, dropWhile_self_of_all_neg hera_ns]
    have hera : matchEra (eraChars bce) = some bce := by cases bce <;> rfl
    have hp1 :
        matchPat1 (ds ++ [c1, c2] ++ (d :: sp1t) ++ centuryChars ++ sp2 ++ eraChars bce)
          = none := by
      have htake' := htake
      have hdrop' := hdrop
      have hdropsp' := hdropsp
      have hmE' := hmE
      simp only [List.cons_append, List.nil_append, centuryChars]
        at htake' hdrop' hdropsp' hmE' ⊢
      simp [matchPat1, htake', hdrop', hdropsp', hmE', hemp]
    have hp2 :
        matchPat2 (ds ++ [c1, c2] ++ (d :: sp1t) ++ centuryChars ++ sp2 ++ eraChars bce)
          = some (digVal ds, bce) := by
      have htake' := htake
      have hdrop' := hdrop
      have hdropsp1' := hdropsp1
      have hdropsp2' := hdropsp2
      have hord' := hord ((d :: sp1t) ++ (centuryChars ++ (sp2 ++ eraChars bce)))
      simp only [List.cons_append, List.nil_append, centuryChars]
        at htake' hdrop' hdropsp1' hdropsp2' hord' ⊢
      simp [matchPat2, htake', hdrop', hord', hd_sp, hdropsp1', hcent, hdropsp2', hera,
        hemp]
    simp only [parse_year, parseYearChars]
    rw [hdec, hp1, hp2]

/-- C1 witness: the era-form clause applied to "3500 BCE" and the
century-form clause applied to "16th century CE". -/
theorem parse_year_recognized_forms_witness :
    parse_year "3500 BCE" = -3500 ∧ parse_year "16th century CE" = 1550 := by
  constructor
  · have h := parse_year_recognized_forms.1 "3500 BCE" ['3', '5', '0', '0'] [' '] true
      (by decide) (by decide) (by decide) (by decide)
    exact h.trans (by decide)
  · have h := parse_year_recognized_forms.2 "16th century CE" ['1', '6'] ['t', 'h']
      [' '] [' '] false (by decide) (by decide) (by decide) (by decide) (by decide)
      (by decide) (by decide)
    exact h.trans (by decide)

/-- C6 counterexample: parse_year yields the sentinel 0 on the recognized
date "0 CE" as well — the sentinel is NOT distinct from a parsed
year-zero date, since form 1 matches "0 CE" and returns 0. -/
theorem parse_year_sentinel_cex :
    matchPat1 (pyStrip ("0 CE").data) = some (0, false) ∧ parse_year "0 CE" = 0 := by
  decide

/-- C6 amended: `parse_year` is a total function (no exceptions in the
model), and every input matching none of the three recognized regex forms
yields the sentinel 0 — including the empty string, malformed text, bare
1–2 digit numbers and inputs with trailing text; however the sentinel
coincides with the value of recognized year-zero dates such as "0 CE". -/
theorem parse_year_sentinel_amended :
    (∀ s : String,
        matchPat1 (pyStrip s.data) = none →
        matchPat2 (pyStrip s.data) = none →
        matchPat3 (pyStrip s.data) = none →
        parse_year s = 0)
    ∧ parse_year "" = 0 ∧ parse_year "garbage" = 0 ∧ parse_year "42" = 0
    ∧ parse_year "1840 CE extra" = 0 := by
  refine ⟨?_, by decide, by decide, by decide, by decide⟩
  intro s h1 h2 h3
  simp only [parse_year, parseYearChars]
  rw [h1, h2, h3]

/-- C6 witness: the fallthrough clause applied to the unrecognized input
"n/a". -/
theorem parse_year_sentinel_amended_witness : parse_year "n/a" = 0 :=
  parse_year_sentinel_amended.1 "n/a" (by decide) (by decide) (by decide)

/-- C7: an input whose stripped form is a bare 3–4 digit string parses to
that literal number, non-negative, with no negation applied. -/
theorem parse_year_bare_number (s : String) (ds : List Char)
    (hdec : pyStrip s.data = ds) (hds : ds.all isPyDigit = true)
    (hlen : ds.length = 3 ∨ ds.length = 4) :
    parse_year s = (digVal ds : Int) ∧ 0 ≤ parse_year s := by
  have htake : ds.takeWhile isPyDigit = ds := by
    have h := @takeWhile_append_all isPyDigit ds [] hds
    simpa using h
  have hdrop : ds.dropWhile isPyDigit = [] := by
    have h := @dropWhile_append_all isPyDigit ds [] hds
    simpa using h
  have hp1 : matchPat1 ds = none := by
    simp [matchPat1, htake, hdrop, matchEra]
  have hp2 : matchPat2 ds = none := by
    simp [matchPat2, htake, hdrop, ordSuffix]
  have hcond : (ds.all isPyDigit && (ds.length == 3 || ds.length == 4)) = true := by
    rw [hds]
    rcases hlen with h | h <;> rw [h] <;> decide
  have hp3 : matchPat3 ds = some (digVal ds) := by
    simp [matchPat3, hcond]
  have hval : parse_year s = (digVal ds : Int) := by
    simp only [parse_year, parseYearChars]
    rw [hdec, hp1, hp2, hp3]
  exact ⟨hval, hval ▸ Int.natCast_nonneg _⟩

/-- C7 witness: the bare-number clause applied to "950". -/
theorem parse_year_bare_number_witness :
    parse_year "950" = (digVal ['9', '5', '0'] : Int) ∧ 0 ≤ parse_year "950" :=
  parse_year_bare_number "950" ['9', '5', '0'] (by decide) (by decide)
    (Or.inl (by decide))

end GeoMap
